import Mathlib

/-!
Shallow embedding of the Delta Live Tables sales pipeline
(`delta-live-tables-demo`): bronze ingestion, silver cleansing
(`sales_silver`), gold aggregation (`daily_sales_gold`), and the star
schema (`dim_location`, `dim_customer`, `dim_product`, `dim_date`,
`fact_sales`).

Tables are modelled as lists of rows.  SQL `GROUP BY` is modelled as
deduplication of the grouping key followed by per-key aggregation over
the rows having that key; SQL inner `JOIN` as a filtered cross product
(`flatMap` over matching rows).  The nondeterministic `uuid()` surrogate
key generator is modelled as an explicit key-assignment function passed
to each run; nothing ties the functions of two distinct runs together,
which mirrors the fact that each materialized-view refresh draws fresh
UUIDs.  Nullable columns (`transaction_id`, `product_id`,
`transaction_date`) are `Option`; SQL equality on a nullable column in a
join condition does not match NULL, which `sqlEqOpt` captures.
-/

namespace DLT

/-- Calendar date, standing in for the SQL DATE type produced by
`date(transaction_date)`. -/
structure Date where
  year : Nat
  month : Nat
  day : Nat
deriving DecidableEq

/-- One sales record as it sits in the bronze / silver tables.  The
columns follow the source's schema: `transaction_id` and `product_id`
are nullable (checked by the silver expectation), `transaction_date` is
nullable (filtered in `dim_date`), the remaining columns are taken
non-null. -/
structure Row where
  transaction_id : Option String
  product_id : Option String
  customer_name : String
  email : String
  delivery_address : String
  city : String
  state : String
  zip_code : String
  product_name : String
  category : String
  quantity : Int
  price : Rat
  discount : Rat
  total_amount : Rat
  payment_method : String
  transaction_date : Option Date
deriving DecidableEq

/-- The silver expectation `transaction_id IS NOT NULL AND product_id IS
NOT NULL` from `@dlt.expect_or_drop("valid_transaction", ...)`. -/
def validTransaction (r : Row) : Bool :=
  r.transaction_id.isSome && r.product_id.isSome

/-- `sales_silver`: reads the bronze table and drops rows failing the
`valid_transaction` expectation, passing surviving rows through
unchanged. -/
def salesSilver (bronze : List Row) : List Row :=
  bronze.filter validTransaction

/-- Grouping key of `daily_sales_gold`: `date(transaction_date), category`. -/
def goldKey (r : Row) : Option Date × String :=
  (r.transaction_date, r.category)

/-- `COUNT(DISTINCT c)` over a nullable column: SQL ignores NULLs and
counts distinct non-null values. -/
def countDistinct {α β : Type} [DecidableEq β] (f : α → Option β) (l : List α) : Nat :=
  (l.filterMap f).dedup.length

/-- One output row of `daily_sales_gold`. -/
structure DailyRow where
  sale_date : Option Date
  category : String
  total_transactions : Nat
  unique_customers : Nat
  total_items_sold : Int
  total_revenue : Rat
  total_discounts : Rat
  average_price : Rat
  average_transaction_value : Rat
deriving DecidableEq

/-- The aggregates of `daily_sales_gold` for one `(sale_date, category)`
group: `COUNT(DISTINCT transaction_id)`, `COUNT(DISTINCT
customer_name)`, `SUM(quantity)`, `SUM(total_amount)`, `SUM(discount)`,
`AVG(price)`, `SUM(total_amount)/COUNT(DISTINCT transaction_id)`. -/
def dailyGroup (rows : List Row) (k : Option Date × String) : DailyRow :=
  let g := rows.filter (fun r => decide (goldKey r = k))
  { sale_date := k.1
    category := k.2
    total_transactions := countDistinct (fun r => r.transaction_id) g
    unique_customers := (g.map (fun r => r.customer_name)).dedup.length
    total_items_sold := (g.map (fun r => r.quantity)).sum
    total_revenue := (g.map (fun r => r.total_amount)).sum
    total_discounts := (g.map (fun r => r.discount)).sum
    average_price := (g.map (fun r => r.price)).sum / (g.length : Rat)
    average_transaction_value :=
      (g.map (fun r => r.total_amount)).sum /
        (countDistinct (fun r => r.transaction_id) g : Rat) }

/-- `daily_sales_gold`: `GROUP BY date(transaction_date), category` over
`sales_silver`, one output row per distinct grouping key. -/
def dailySalesGold (rows : List Row) : List DailyRow :=
  ((rows.map goldKey).dedup).map (dailyGroup rows)

/-- Natural-key tuple grouped on by `dim_location`:
`delivery_address, city, state, zip_code`. -/
def locTuple (r : Row) : String × String × String × String :=
  (r.delivery_address, r.city, r.state, r.zip_code)

/-- One row of `dim_location`. -/
structure DimLocationRow where
  location_key : Nat
  delivery_address : String
  city : String
  state : String
  zip_code : String
deriving DecidableEq

/-- Build a `dim_location` row from its natural-key tuple and a key
generator standing in for `uuid()`. -/
def mkLoc (kgL : String × String × String × String → Nat)
    (t : String × String × String × String) : DimLocationRow :=
  ⟨kgL t, t.1, t.2.1, t.2.2.1, t.2.2.2⟩

/-- `dim_location`: `GROUP BY delivery_address, city, state, zip_code`
over `sales_silver`, each group getting a surrogate key from the run's
`uuid()` draw `kgL`. -/
def dimLocation (kgL : String × String × String × String → Nat)
    (rows : List Row) : List DimLocationRow :=
  ((rows.map locTuple).dedup).map (mkLoc kgL)

/-- One row of `dim_customer`. -/
structure DimCustomerRow where
  customer_key : Nat
  location_key : Nat
  customer_name : String
  email : String
deriving DecidableEq

/-- The `dim_customer` join condition: `s.delivery_address =
l.delivery_address AND s.city = l.city AND s.state = l.state AND
s.zip_code = l.zip_code`. -/
def locRowMatches (s : Row) (l : DimLocationRow) : Bool :=
  decide (locTuple s = (l.delivery_address, l.city, l.state, l.zip_code))

/-- The grouping tuples of `dim_customer`: the silver/location join
projected to `(customer_name, email, l.location_key)` and grouped
(`GROUP BY customer_name, email, l.location_key`). -/
def custTuples (kgL : String × String × String × String → Nat)
    (rows : List Row) : List (String × String × Nat) :=
  (rows.flatMap (fun s =>
    ((dimLocation kgL rows).filter (locRowMatches s)).map
      (fun l => (s.customer_name, s.email, l.location_key)))).dedup

/-- `dim_customer`: join `sales_silver` to `dim_location` on the full
location tuple, group by `(customer_name, email, location_key)`, and
give each group a surrogate key from the run's `uuid()` draw `kgC`. -/
def dimCustomer (kgL : String × String × String × String → Nat)
    (kgC : String × String × Nat → Nat) (rows : List Row) : List DimCustomerRow :=
  (custTuples kgL rows).map (fun t => ⟨kgC t, t.2.2, t.1, t.2.1⟩)

/-- Natural-key tuple grouped on by `dim_product`:
`product_id, product_name, category, price`. -/
def prodTuple (r : Row) : Option String × String × String × Rat :=
  (r.product_id, r.product_name, r.category, r.price)

/-- One row of `dim_product`. -/
structure DimProductRow where
  product_key : Nat
  product_id : Option String
  product_name : String
  category : String
  price : Rat
deriving DecidableEq

/-- Build a `dim_product` row from its natural-key tuple and a key
generator standing in for `uuid()`. -/
def mkProd (kgP : Option String × String × String × Rat → Nat)
    (t : Option String × String × String × Rat) : DimProductRow :=
  ⟨kgP t, t.1, t.2.1, t.2.2.1, t.2.2.2⟩

/-- `dim_product`: `GROUP BY product_id, product_name, category, price`
over `sales_silver`. -/
def dimProduct (kgP : Option String × String × String × Rat → Nat)
    (rows : List Row) : List DimProductRow :=
  ((rows.map prodTuple).dedup).map (mkProd kgP)

/-- One row of `dim_date`. -/
structure DimDateRow where
  date_key : Date
  year : Nat
  month : Nat
  day : Nat
deriving DecidableEq

/-- `dim_date`: `SELECT DISTINCT date(transaction_date), year, month,
day ... WHERE transaction_date IS NOT NULL`. -/
def dimDate (rows : List Row) : List DimDateRow :=
  ((rows.filterMap (fun r => r.transaction_date)).dedup).map
    (fun d => ⟨d, d.year, d.month, d.day⟩)

/-- SQL equality on a nullable column: NULL compares unequal to
everything, including NULL. -/
def sqlEqOpt (a b : Option String) : Bool :=
  match a, b with
  | some x, some y => decide (x = y)
  | _, _ => false

/-- One row of `fact_sales`. -/
structure FactRow where
  transaction_id : Option String
  customer_key : Nat
  product_key : Nat
  location_key : Nat
  date_key : Option Date
  quantity : Int
  price : Rat
  discount : Rat
  total_amount : Rat
  payment_method : String
deriving DecidableEq

/-- The `fact_sales` join condition to `dim_customer`:
`fs.customer_name = dc.customer_name AND fs.email = dc.email`. -/
def custMatch (s : Row) (c : DimCustomerRow) : Bool :=
  decide (c.customer_name = s.customer_name ∧ c.email = s.email)

/-- The `fact_sales` join condition to `dim_product`:
`fs.product_id = dp.product_id` (SQL three-valued equality). -/
def prodMatch (s : Row) (p : DimProductRow) : Bool :=
  sqlEqOpt s.product_id p.product_id

/-- The `fact_sales` join condition to `dim_location`:
`fs.city = dl.city AND fs.state = dl.state AND fs.zip_code = dl.zip_code`. -/
def locMatch (s : Row) (l : DimLocationRow) : Bool :=
  decide (l.city = s.city ∧ l.state = s.state ∧ l.zip_code = s.zip_code)

/-- The fact rows produced by one silver row: the filtered cross product
with the three joined dimension tables, `date_key` taken directly from
the silver row's `transaction_date`. -/
def factRowsOf (dc : List DimCustomerRow) (dp : List DimProductRow)
    (dl : List DimLocationRow) (s : Row) : List FactRow :=
  (dc.filter (custMatch s)).flatMap (fun c =>
    (dp.filter (prodMatch s)).flatMap (fun p =>
      (dl.filter (locMatch s)).map (fun l =>
        ⟨s.transaction_id, c.customer_key, p.product_key, l.location_key,
         s.transaction_date, s.quantity, s.price, s.discount,
         s.total_amount, s.payment_method⟩)))

/-- `fact_sales` before its `WHERE` clause: the three inner joins of
`sales_silver` against `dim_customer`, `dim_product`, `dim_location`. -/
def factSalesAll (kgL : String × String × String × String → Nat)
    (kgC : String × String × Nat → Nat)
    (kgP : Option String × String × String × Rat → Nat)
    (rows : List Row) : List FactRow :=
  rows.flatMap
    (factRowsOf (dimCustomer kgL kgC rows) (dimProduct kgP rows) (dimLocation kgL rows))

/-- `fact_sales`: the joins followed by
`WHERE fs.transaction_id IS NOT NULL`. -/
def factSales (kgL : String × String × String × String → Nat)
    (kgC : String × String × Nat → Nat)
    (kgP : Option String × String × String × Rat → Nat)
    (rows : List Row) : List FactRow :=
  (factSalesAll kgL kgC kgP rows).filter (fun f => f.transaction_id.isSome)

/-- Modelled from the spec: the ingestion layer's input, a named source
file holding parsed rows.  The file-level exactly-once tracking itself
(Auto Loader / `cloudFiles`) is platform code absent from the
repository; §4.1 of the spec gives its contract. -/
structure SourceFile where
  fname : String
  rows : List Row
deriving DecidableEq

/-- One bronze row: the raw row tagged with its source file, per the
spec's ingestion metadata. -/
structure BronzeRow where
  source_file : String
  row : Row
deriving DecidableEq

/-- Modelled from the spec: the durable record of which files have been
processed (spec §4.1, §9: a persisted set of processed-file
identifiers). -/
structure IngestState where
  seen : List String
deriving DecidableEq

/-- Modelled from the spec: one ingestion run over a directory of source
files.  Files whose names are already in the durable `seen` record are
skipped; each remaining file contributes exactly one bronze row per
source row, tagged with its file name, and is added to `seen` (spec
§4.1: exactly one RawSalesRecord per source row, exactly once per file
even under repeated invocation). -/
def ingest (st : IngestState) (files : List SourceFile) :
    IngestState × List BronzeRow :=
  let newFiles := files.filter (fun f => decide (f.fname ∉ st.seen))
  (⟨st.seen ++ newFiles.map (fun f => f.fname)⟩,
   newFiles.flatMap (fun f => f.rows.map (fun r => ⟨f.fname, r⟩)))

/-! ### Generic list lemmas -/

/-- Splitting a sum over a list by a Boolean predicate. -/
lemma sum_map_filter_add_not {α : Type} (p : α → Bool) (f : α → Rat) :
    ∀ l : List α,
      ((l.filter p).map f).sum + ((l.filter (fun a => ! p a)).map f).sum
        = (l.map f).sum := by
  intro l
  induction l with
  | nil => simp
  | cons a l ih =>
      by_cases h : p a = true
      · simp [List.filter_cons, h, add_assoc, ih]
      · have h' : p a = false := by simpa using h
        simp [List.filter_cons, h']
        rw [add_left_comm, ih]

/-- Summing group sums over a duplicate-free list of keys covering every
element recovers the total sum. -/
lemma sum_groups {α κ : Type} [DecidableEq κ] (key : α → κ) (f : α → Rat) :
    ∀ (K : List κ) (l : List α), K.Nodup → (∀ a ∈ l, key a ∈ K) →
      (K.map (fun k => ((l.filter (fun a => decide (key a = k))).map f).sum)).sum
        = (l.map f).sum := by
  intro K
  induction K with
  | nil =>
      intro l _ hcov
      have hl : l = [] := by
        cases l with
        | nil => rfl
        | cons a l => exact absurd (hcov a (by simp)) (by simp)
      simp [hl]
  | cons k K ih =>
      intro l hnd hcov
      have hnd' : K.Nodup := (List.nodup_cons.mp hnd).2
      have hk : k ∉ K := (List.nodup_cons.mp hnd).1
      set l₂ := l.filter (fun a => ! decide (key a = k)) with hl₂
      have hcov₂ : ∀ a ∈ l₂, key a ∈ K := by
        intro a ha
        have ha' := List.mem_filter.mp ha
        have hne : key a ≠ k := by simpa using ha'.2
        have := hcov a ha'.1
        simpa [hne] using this
      have hgrp : ∀ k' ∈ K,
          l.filter (fun a => decide (key a = k'))
            = l₂.filter (fun a => decide (key a = k')) := by
        intro k' hk'
        have hkk : k' ≠ k := fun h => hk (h ▸ hk')
        rw [hl₂, List.filter_filter]
        apply List.filter_congr
        intro a _
        by_cases h : key a = k'
        · simp [h, hkk]
        · simp [h]
      have hmap : K.map (fun k' => ((l.filter (fun a => decide (key a = k'))).map f).sum)
          = K.map (fun k' => ((l₂.filter (fun a => decide (key a = k'))).map f).sum) := by
        apply List.map_congr_left
        intro k' hk'
        rw [hgrp k' hk']
      calc (List.map (fun k' => ((l.filter (fun a => decide (key a = k'))).map f).sum) (k :: K)).sum
          = ((l.filter (fun a => decide (key a = k))).map f).sum
            + (K.map (fun k' => ((l₂.filter (fun a => decide (key a = k'))).map f).sum)).sum := by
            rw [List.map_cons, List.sum_cons, hmap]
        _ = ((l.filter (fun a => decide (key a = k))).map f).sum + (l₂.map f).sum := by
            rw [ih l₂ hnd' hcov₂]
        _ = (l.map f).sum := sum_map_filter_add_not _ f l

/-- Filtering a duplicate-free list by a predicate equivalent to
equality with a member yields that singleton. -/
lemma filter_eq_singleton_of_nodup {α : Type} {l : List α} {p : α → Bool} {a : α}
    (hnd : l.Nodup) (ha : a ∈ l) (hp : ∀ x ∈ l, p x = true ↔ x = a) :
    l.filter p = [a] := by
  induction l with
  | nil => cases ha
  | cons b l ih =>
      have hnd' : l.Nodup := (List.nodup_cons.mp hnd).2
      have hb : b ∉ l := (List.nodup_cons.mp hnd).1
      by_cases hba : b = a
      · subst hba
        have hpb : p b = true := (hp b (by simp)).mpr rfl
        have hrest : l.filter p = [] := by
          apply List.filter_eq_nil_iff.mpr
          intro x hx
          intro hpx
          have : x = b := (hp x (by simp [hx])).mp hpx
          exact hb (this ▸ hx)
        simp [List.filter_cons, hpb, hrest]
      · have hal : a ∈ l := by
          rcases List.mem_cons.mp ha with h | h
          · exact absurd h.symm hba
          · exact h
        have hpb : p b = false := by
          by_contra h
          have : p b = true := by simpa using h
          exact hba ((hp b (by simp)).mp this)
        rw [List.filter_cons_of_neg (by simp [hpb])]
        exact ih hnd' hal (fun x hx => hp x (by simp [hx]))

/-! ### Claim theorems -/

/-- Claim C3: cleansing excludes a bronze row exactly when its
`transaction_id` or `product_id` is null, and includes it unchanged
(the very same row) when both are non-null; hence `sales_silver`
contains no row with a null `transaction_id` or `product_id`. -/
theorem claim3_silver_filters_nulls (bronze : List Row) (r : Row) :
    r ∈ salesSilver bronze ↔
      r ∈ bronze ∧ r.transaction_id.isSome ∧ r.product_id.isSome := by
  simp [salesSilver, List.mem_filter, validTransaction]

/-- Claim C4: the sum of `total_revenue` over all `(sale_date,
category)` groups of `daily_sales_gold` equals the sum of
`total_amount` over all `sales_silver` rows (revenue reconciliation). -/
theorem claim4_revenue_reconciliation (rows : List Row) :
    ((dailySalesGold rows).map (fun g => g.total_revenue)).sum
      = (rows.map (fun r => r.total_amount)).sum := by
  have h := sum_groups goldKey (fun r => r.total_amount)
      ((rows.map goldKey).dedup) rows (List.nodup_dedup _)
      (fun a ha => List.mem_dedup.mpr (List.mem_map_of_mem _ ha))
  rw [dailySalesGold, List.map_map]
  exact h

/-- Claim C10: the `WHERE transaction_id IS NOT NULL` clause of
`fact_sales` is redundant over `sales_silver` input: the fact table with
the filter equals the fact table without it. -/
theorem claim10_where_clause_redundant
    (kgL : String × String × String × String → Nat)
    (kgC : String × String × Nat → Nat)
    (kgP : Option String × String × String × Rat → Nat)
    (bronze : List Row) :
    factSales kgL kgC kgP (salesSilver bronze)
      = factSalesAll kgL kgC kgP (salesSilver bronze) := by
  apply List.filter_eq_self.mpr
  intro f hf
  rcases List.mem_flatMap.mp hf with ⟨s, hs, hfs⟩
  have hfid : f.transaction_id = s.transaction_id := by
    rcases List.mem_flatMap.mp hfs with ⟨c, _, h2⟩
    rcases List.mem_flatMap.mp h2 with ⟨p, _, h3⟩
    rcases List.mem_map.mp h3 with ⟨l, _, rfl⟩
    rfl
  have hv := (List.mem_filter.mp hs).2
  have : s.transaction_id.isSome := by
    simpa [validTransaction, Bool.and_eq_true] using And.left (by simpa [validTransaction, Bool.and_eq_true] using hv)
  simp [hfid, this]

/-- Claim C5 (spec-modelled ingestion): a run over a fresh state
produces exactly one bronze row per source-file row, tagged with its
file; and re-running on an already-ingested file set produces no new
bronze rows. -/
theorem claim5_ingestion_exactly_once (st : IngestState) (files : List SourceFile) :
    (ingest ⟨[]⟩ files).2
        = files.flatMap (fun f => f.rows.map (fun r => ⟨f.fname, r⟩)) ∧
      (ingest (ingest st files).1 files).2 = [] := by
  constructor
  · simp [ingest]
  · have h2 : files.filter (fun f =>
        decide (f.fname ∉ (st.seen ++
          (files.filter (fun f => decide (f.fname ∉ st.seen))).map (fun f => f.fname)))) = [] := by
      apply List.filter_eq_nil_iff.mpr
      intro f hf
      simp only [decide_eq_true_eq, List.mem_append, Decidable.not_not, not_or]
      intro hcon
      by_cases hseen : f.fname ∈ st.seen
      · exact hcon.1 hseen
      · have hmemf : f ∈ files.filter (fun f => decide (f.fname ∉ st.seen)) :=
          List.mem_filter.mpr ⟨hf, by simpa using hseen⟩
        exact hcon.2 (List.mem_map_of_mem _ hmemf)
    simp only [ingest, h2, List.flatMap_nil]

/-- Claim C8: every `dim_customer` row's `location_key` is the
`location_key` of some `dim_location` row (customer-to-location
referential integrity). -/
theorem claim8_customer_location_integrity
    (kgL : String × String × String × String → Nat)
    (kgC : String × String × Nat → Nat)
    (rows : List Row) (c : DimCustomerRow)
    (hc : c ∈ dimCustomer kgL kgC rows) :
    ∃ l ∈ dimLocation kgL rows, l.location_key = c.location_key := by
  rcases List.mem_map.mp hc with ⟨t, ht, rfl⟩
  rw [custTuples, List.mem_dedup] at ht
  rcases List.mem_flatMap.mp ht with ⟨s, _, hmem⟩
  rcases List.mem_map.mp hmem with ⟨l, hl, rfl⟩
  exact ⟨l, (List.mem_filter.mp hl).1, rfl⟩

/-- Claim C9: when `daily_sales_gold` is computed over `sales_silver`
output, every group has a distinct-transaction count of at least one
(each group is witnessed by a silver row whose `transaction_id` survived
the null filter), so `average_transaction_value`'s divisor is never
zero. -/
theorem claim9_no_division_by_zero (bronze : List Row) (g : DailyRow)
    (hg : g ∈ dailySalesGold (salesSilver bronze)) :
    1 ≤ g.total_transactions ∧ (g.total_transactions : Rat) ≠ 0 := by
  rcases List.mem_map.mp hg with ⟨k, hk, rfl⟩
  rcases List.mem_map.mp (List.mem_dedup.mp hk) with ⟨r, hr, hkey⟩
  have hrg : r ∈ (salesSilver bronze).filter (fun r => decide (goldKey r = k)) :=
    List.mem_filter.mpr ⟨hr, by simp [hkey]⟩
  have hsome : r.transaction_id.isSome := by
    have := (List.mem_filter.mp hr).2
    simp only [validTransaction, Bool.and_eq_true] at this
    exact this.1
  rcases Option.isSome_iff_exists.mp hsome with ⟨x, hx⟩
  have hxmem : x ∈ (((salesSilver bronze).filter
      (fun r => decide (goldKey r = k))).filterMap (fun r => r.transaction_id)).dedup :=
    List.mem_dedup.mpr (List.mem_filterMap.mpr ⟨r, hrg, hx⟩)
  have hlen : 1 ≤ (dailyGroup (salesSilver bronze) k).total_transactions := by
    simpa [dailyGroup, countDistinct] using
      List.length_pos.mpr (List.ne_nil_of_mem hxmem)
  refine ⟨hlen, ?_⟩
  exact Nat.cast_ne_zero.mpr (by omega)

/-! ### Concrete example data -/

/-- January 1st, 2024, the date used in the spec's worked example. -/
def d20240101 : Date := ⟨2024, 1, 1⟩

/-- A cleansed Electronics transaction of 100 on 2024-01-01. -/
def row100 : Row :=
  { transaction_id := some "T1"
    product_id := some "P1"
    customer_name := "Alice"
    email := "alice@example.com"
    delivery_address := "1 Main St"
    city := "Springfield"
    state := "IL"
    zip_code := "62701"
    product_name := "Laptop"
    category := "Electronics"
    quantity := 1
    price := 100
    discount := 0
    total_amount := 100
    payment_method := "card"
    transaction_date := some d20240101 }

/-- A second cleansed transaction of the same customer, product and
location, with amount 50. -/
def row50 : Row :=
  { row100 with transaction_id := some "T2", total_amount := 50 }

/-- A transaction of the same customer and product delivered to a
different street address in the same city/state/zip. -/
def rowOtherAddress : Row :=
  { row100 with transaction_id := some "T2", delivery_address := "2 Oak Ave" }

/-- Claim C7: two cleansed rows dated 2024-01-01 in category
Electronics with amounts 100 and 50 yield a single `daily_sales_gold`
group with `total_transactions = 2` and `total_revenue = 150`. -/
theorem claim7_daily_sales_example :
    (dailySalesGold [row100, row50]).map
        (fun g => (g.sale_date, g.category, g.total_transactions, g.total_revenue))
      = [(some d20240101, "Electronics", 2, 150)] := by
  have hkeys : (([row100, row50].map goldKey).dedup)
      = [(some d20240101, "Electronics")] := by decide
  have hgrp : [row100, row50].filter
      (fun r => decide (goldKey r = (some d20240101, "Electronics")))
      = [row100, row50] := by decide
  have hcnt : countDistinct (fun r => r.transaction_id) [row100, row50] = 2 := by
    decide
  have hamt100 : row100.total_amount = 100 := rfl
  have hamt50 : row50.total_amount = 50 := rfl
  rw [dailySalesGold, hkeys]
  simp only [List.map_cons, List.map_nil, dailyGroup, hgrp, hcnt, hamt100, hamt50,
    List.sum_cons, List.sum_nil]
  norm_num

/-- Claim C2 at its failing input: `dim_customer` is rebuilt with fresh
`uuid()` draws on every materialized-view refresh, so after adding one
new transaction (`row50`) for the existing customer Alice, a second run
whose `uuid()` draw differs from the first run's (here `fun t => 0`
versus `fun t => 1`; nothing persists key assignments across refreshes)
gives Alice a different `customer_key`: the first run keys her tuple
with 0, the second with 1. -/
theorem claim2_rerun_changes_customer_key :
    (dimCustomer (fun _ => 0) (fun _ => 0) [row100]).map
        (fun c => (c.customer_name, c.email, c.customer_key))
      = [("Alice", "alice@example.com", 0)] ∧
    (dimCustomer (fun _ => 0) (fun _ => 1) [row100, row50]).map
        (fun c => (c.customer_name, c.email, c.customer_key))
      = [("Alice", "alice@example.com", 1)] := by
  constructor
  · decide
  · decide

/-- Claim C1 counterexample: two valid cleansed transactions of one
customer delivered to two street addresses in the same city/state/zip
make `dim_location` hold two rows and `dim_customer` two rows, and the
fact joins (on city/state/zip and on name/email only) then match each
transaction against both, producing 8 fact rows for 2 valid
transactions — transaction T1 alone yields 4 fact rows, so the fact
table is not one row per valid transaction and the natural-key
attributes do not match exactly one row per dimension. -/
theorem claim1_counterexample :
    ([row100, rowOtherAddress].filter (fun r => r.transaction_id.isSome)).length = 2 ∧
    (factSales (fun t => if t = locTuple row100 then 0 else 1)
        (fun t => if t.2.2 = 0 then 0 else 1) (fun _ => 0)
        [row100, rowOtherAddress]).length = 8 ∧
    ((factSales (fun t => if t = locTuple row100 then 0 else 1)
        (fun t => if t.2.2 = 0 then 0 else 1) (fun _ => 0)
        [row100, rowOtherAddress]).filter
      (fun f => decide (f.transaction_id = some "T1"))).length = 4 := by
  refine ⟨by decide, by decide, by decide⟩

/-! ### Singleton-join lemmas for the dimensions -/

/-- Membership characterization of the `dim_customer` grouping tuples:
they are exactly the `(customer_name, email, kgL (locTuple r))` triples
of the input rows. -/
lemma mem_custTuples {kgL : String × String × String × String → Nat}
    {rows : List Row} {t : String × String × Nat} :
    t ∈ custTuples kgL rows ↔
      ∃ r ∈ rows, t = (r.customer_name, r.email, kgL (locTuple r)) := by
  constructor
  · intro ht
    rw [custTuples, List.mem_dedup] at ht
    rcases List.mem_flatMap.mp ht with ⟨s, hs, hmem⟩
    rcases List.mem_map.mp hmem with ⟨l, hl, rfl⟩
    rcases List.mem_filter.mp hl with ⟨hld, hlm⟩
    rcases List.mem_map.mp hld with ⟨t', _, rfl⟩
    have hts : locTuple s = t' := by
      simpa [locRowMatches, mkLoc] using hlm
    subst hts
    exact ⟨s, hs, rfl⟩
  · rintro ⟨r, hr, rfl⟩
    rw [custTuples, List.mem_dedup]
    apply List.mem_flatMap.mpr
    refine ⟨r, hr, ?_⟩
    apply List.mem_map.mpr
    refine ⟨mkLoc kgL (locTuple r), ?_, rfl⟩
    apply List.mem_filter.mpr
    refine ⟨List.mem_map_of_mem _ (List.mem_dedup.mpr (List.mem_map_of_mem _ hr)), ?_⟩
    simp [locRowMatches, mkLoc]

/-- When `(customer_name, email)` functionally determines the location
tuple in the input, each row's fact join against `dim_customer` matches
exactly the one row of its own customer tuple. -/
lemma cust_filter_singleton (kgL : String × String × String × String → Nat)
    (kgC : String × String × Nat → Nat) {rows : List Row}
    (hFDcust : ∀ r ∈ rows, ∀ r' ∈ rows,
      r.customer_name = r'.customer_name → r.email = r'.email →
        locTuple r = locTuple r')
    {s : Row} (hs : s ∈ rows) :
    (dimCustomer kgL kgC rows).filter (custMatch s)
      = [⟨kgC (s.customer_name, s.email, kgL (locTuple s)), kgL (locTuple s),
          s.customer_name, s.email⟩] := by
  rw [dimCustomer, List.filter_map]
  have hcomp : (custMatch s ∘ fun t : String × String × Nat =>
        (⟨kgC t, t.2.2, t.1, t.2.1⟩ : DimCustomerRow))
      = fun t : String × String × Nat =>
        decide (t.1 = s.customer_name ∧ t.2.1 = s.email) := rfl
  rw [hcomp]
  have hnd : (custTuples kgL rows).Nodup := by
    rw [custTuples]; exact List.nodup_dedup _
  have hmem : (s.customer_name, s.email, kgL (locTuple s)) ∈ custTuples kgL rows :=
    mem_custTuples.mpr ⟨s, hs, rfl⟩
  have hp : ∀ t ∈ custTuples kgL rows,
      (decide (t.1 = s.customer_name ∧ t.2.1 = s.email) = true
        ↔ t = (s.customer_name, s.email, kgL (locTuple s))) := by
    intro t htmem
    constructor
    · intro hpt
      rcases mem_custTuples.mp htmem with ⟨r, hr, rfl⟩
      simp only [decide_eq_true_eq] at hpt
      have hloc := hFDcust r hr s hs hpt.1 hpt.2
      rw [hpt.1, hpt.2, hloc]
    · rintro rfl; simp
  rw [filter_eq_singleton_of_nodup hnd hmem hp]
  rfl

/-- When `(city, state, zip_code)` functionally determines
`delivery_address` in the input, each row's fact join against
`dim_location` matches exactly the one row of its own location tuple. -/
lemma loc_filter_singleton (kgL : String × String × String × String → Nat)
    {rows : List Row}
    (hFDloc : ∀ r ∈ rows, ∀ r' ∈ rows,
      r.city = r'.city → r.state = r'.state → r.zip_code = r'.zip_code →
        r.delivery_address = r'.delivery_address)
    {s : Row} (hs : s ∈ rows) :
    (dimLocation kgL rows).filter (locMatch s) = [mkLoc kgL (locTuple s)] := by
  rw [dimLocation, List.filter_map]
  have hcomp : (locMatch s ∘ mkLoc kgL)
      = fun t : String × String × String × String =>
        decide (t.2.1 = s.city ∧ t.2.2.1 = s.state ∧ t.2.2.2 = s.zip_code) := rfl
  rw [hcomp]
  have hmem : locTuple s ∈ (rows.map locTuple).dedup :=
    List.mem_dedup.mpr (List.mem_map_of_mem _ hs)
  have hp : ∀ t ∈ (rows.map locTuple).dedup,
      (decide (t.2.1 = s.city ∧ t.2.2.1 = s.state ∧ t.2.2.2 = s.zip_code) = true
        ↔ t = locTuple s) := by
    intro t htmem
    constructor
    · intro hpt
      rcases List.mem_map.mp (List.mem_dedup.mp htmem) with ⟨r, hr, rfl⟩
      simp only [decide_eq_true_eq] at hpt
      have h1 : r.city = s.city := hpt.1
      have h2 : r.state = s.state := hpt.2.1
      have h3 : r.zip_code = s.zip_code := hpt.2.2
      have hda := hFDloc r hr s hs h1 h2 h3
      show locTuple r = locTuple s
      rw [locTuple, locTuple, hda, h1, h2, h3]
    · rintro rfl
      exact decide_eq_true ⟨rfl, rfl, rfl⟩
  rw [filter_eq_singleton_of_nodup (List.nodup_dedup _) hmem hp]
  rfl

/-- When `product_id` functionally determines the product tuple in the
input and the row's `product_id` is non-null, the fact join against
`dim_product` matches exactly the one row of its own product tuple. -/
lemma prod_filter_singleton (kgP : Option String × String × String × Rat → Nat)
    {rows : List Row}
    (hFDprod : ∀ r ∈ rows, ∀ r' ∈ rows,
      r.product_id = r'.product_id → prodTuple r = prodTuple r')
    {s : Row} (hs : s ∈ rows) (hsome : s.product_id.isSome) :
    (dimProduct kgP rows).filter (prodMatch s) = [mkProd kgP (prodTuple s)] := by
  rw [dimProduct, List.filter_map]
  have hcomp : (prodMatch s ∘ mkProd kgP)
      = fun t : Option String × String × String × Rat =>
        sqlEqOpt s.product_id t.1 := rfl
  rw [hcomp]
  rcases Option.isSome_iff_exists.mp hsome with ⟨x, hx⟩
  have hmem : prodTuple s ∈ (rows.map prodTuple).dedup :=
    List.mem_dedup.mpr (List.mem_map_of_mem _ hs)
  have hp : ∀ t ∈ (rows.map prodTuple).dedup,
      (sqlEqOpt s.product_id t.1 = true ↔ t = prodTuple s) := by
    intro t htmem
    constructor
    · intro hpt
      rcases List.mem_map.mp (List.mem_dedup.mp htmem) with ⟨r, hr, rfl⟩
      have hpe : r.product_id = s.product_id := by
        rw [hx] at hpt
        cases hrp : r.product_id with
        | none =>
            rw [show (prodTuple r).1 = r.product_id from rfl, hrp] at hpt
            simp [sqlEqOpt] at hpt
        | some y =>
            rw [show (prodTuple r).1 = r.product_id from rfl, hrp] at hpt
            have hxy : x = y := by simpa [sqlEqOpt] using hpt
            subst hxy
            exact hx.symm
      exact hFDprod r hr s hs hpe
    · rintro rfl
      rw [show (prodTuple s).1 = s.product_id from rfl, hx]
      simp [sqlEqOpt]
  rw [filter_eq_singleton_of_nodup (List.nodup_dedup _) hmem hp]
  rfl

/-- A non-null `transaction_date` matches exactly one `dim_date` row. -/
lemma date_filter_singleton {rows : List Row} {s : Row} (hs : s ∈ rows)
    {d : Date} (hd : s.transaction_date = some d) :
    (dimDate rows).filter (fun dd => decide (dd.date_key = d))
      = [⟨d, d.year, d.month, d.day⟩] := by
  rw [dimDate, List.filter_map]
  have hcomp : ((fun dd : DimDateRow => decide (dd.date_key = d))
        ∘ fun d' : Date => (⟨d', d'.year, d'.month, d'.day⟩ : DimDateRow))
      = fun d' : Date => decide (d' = d) := rfl
  rw [hcomp]
  have hmem : d ∈ (rows.filterMap (fun r => r.transaction_date)).dedup :=
    List.mem_dedup.mpr (List.mem_filterMap.mpr ⟨s, hs, hd⟩)
  have hp : ∀ x ∈ (rows.filterMap (fun r => r.transaction_date)).dedup,
      (decide (x = d) = true ↔ x = d) := by
    intro x _; simp
  rw [filter_eq_singleton_of_nodup (List.nodup_dedup _) hmem hp]
  rfl

/-- Filtering distributes over `flatMap`. -/
lemma filter_flatMap {α β : Type} (l : List α) (F : α → List β) (P : β → Bool) :
    (l.flatMap F).filter P = l.flatMap (fun a => (F a).filter P) := by
  induction l with
  | nil => rfl
  | cons a l ih => simp [List.flatMap_cons, List.filter_append, ih]

/-- Counting via an indicator sum equals the filtered length. -/
lemma sum_ite_eq_length_filter {α : Type} (p : α → Bool) (l : List α) :
    (l.map (fun a => if p a then 1 else 0)).sum = (l.filter p).length := by
  induction l with
  | nil => rfl
  | cons a l ih => by_cases h : p a <;> simp [List.filter_cons, h, ih, Nat.add_comm]

/-- Claim C6: `dim_location` holds exactly one row per distinct
`(delivery_address, city, state, zip_code)` tuple occurring in the
cleansed rows (each such tuple's row is the unique filter hit, every
dimension row's tuple occurs in the input, and no two rows share a
tuple), and — the run's `uuid()` draw assigning distinct keys to
distinct groups — the surrogate keys are pairwise distinct. -/
theorem claim6_dim_location_unique (kgL : String × String × String × String → Nat)
    (rows : List Row)
    (hinj : ∀ t₁ ∈ (rows.map locTuple).dedup, ∀ t₂ ∈ (rows.map locTuple).dedup,
      kgL t₁ = kgL t₂ → t₁ = t₂) :
    (∀ r ∈ rows, (dimLocation kgL rows).filter
        (fun l => decide ((l.delivery_address, l.city, l.state, l.zip_code) = locTuple r))
        = [mkLoc kgL (locTuple r)]) ∧
    (∀ l ∈ dimLocation kgL rows, ∃ r ∈ rows,
        (l.delivery_address, l.city, l.state, l.zip_code) = locTuple r) ∧
    ((dimLocation kgL rows).map
        (fun l => (l.delivery_address, l.city, l.state, l.zip_code))).Nodup ∧
    ((dimLocation kgL rows).map (fun l => l.location_key)).Nodup := by
  refine ⟨?_, ?_, ?_, ?_⟩
  · intro r hr
    rw [dimLocation, List.filter_map]
    have hcomp : ((fun l : DimLocationRow =>
          decide ((l.delivery_address, l.city, l.state, l.zip_code) = locTuple r))
        ∘ mkLoc kgL)
        = fun t : String × String × String × String => decide (t = locTuple r) := rfl
    rw [hcomp]
    have hmem : locTuple r ∈ (rows.map locTuple).dedup :=
      List.mem_dedup.mpr (List.mem_map_of_mem _ hr)
    have hp : ∀ t ∈ (rows.map locTuple).dedup,
        (decide (t = locTuple r) = true ↔ t = locTuple r) := by
      intro t _; simp
    rw [filter_eq_singleton_of_nodup (List.nodup_dedup _) hmem hp]
    rfl
  · intro l hl
    rcases List.mem_map.mp hl with ⟨t, ht, rfl⟩
    rcases List.mem_map.mp (List.mem_dedup.mp ht) with ⟨r, hr, hteq⟩
    exact ⟨r, hr, hteq.symm⟩
  · rw [dimLocation, List.map_map]
    have hcomp : ((fun l : DimLocationRow =>
          (l.delivery_address, l.city, l.state, l.zip_code)) ∘ mkLoc kgL) = id := rfl
    rw [hcomp, List.map_id]
    exact List.nodup_dedup _
  · rw [dimLocation, List.map_map]
    have hcomp : ((fun l : DimLocationRow => l.location_key) ∘ mkLoc kgL) = kgL := rfl
    rw [hcomp]
    exact List.Nodup.map_on hinj (List.nodup_dedup _)

/-- Witness for C6 at a concrete two-location input with an injective
key draw. -/
theorem claim6_witness :
    ((dimLocation (fun t => if t = locTuple row100 then 0 else 1)
        [row100, rowOtherAddress]).map (fun l => l.location_key)).Nodup :=
  (claim6_dim_location_unique (fun t => if t = locTuple row100 then 0 else 1)
    [row100, rowOtherAddress] (by decide)).2.2.2

/-- The single fact row a silver row contributes when each of its join
keys matches exactly one dimension row. -/
def soleFactRow (kgL : String × String × String × String → Nat)
    (kgC : String × String × Nat → Nat)
    (kgP : Option String × String × String × Rat → Nat) (s : Row) : FactRow :=
  ⟨s.transaction_id, kgC (s.customer_name, s.email, kgL (locTuple s)),
   kgP (prodTuple s), kgL (locTuple s), s.transaction_date, s.quantity,
   s.price, s.discount, s.total_amount, s.payment_method⟩

/-- Claim C1, amended: provided the cleansed rows' join keys determine
the dimension grouping attributes — `(city, state, zip_code)` determines
`delivery_address`, `(customer_name, email)` determines the location
tuple, and `product_id` (non-null) determines the product tuple — the
fact table contains exactly one row per valid transaction (one per
cleansed row with non-null `transaction_id`), and every cleansed row's
natural-key attributes match exactly one row in each referenced
dimension.  Without these functional dependencies the joins duplicate
fact rows (see the counterexample). -/
theorem claim1_fact_one_row_per_transaction
    (kgL : String × String × String × String → Nat)
    (kgC : String × String × Nat → Nat)
    (kgP : Option String × String × String × Rat → Nat)
    (rows : List Row)
    (hpid : ∀ r ∈ rows, r.product_id.isSome)
    (hFDloc : ∀ r ∈ rows, ∀ r' ∈ rows,
      r.city = r'.city → r.state = r'.state → r.zip_code = r'.zip_code →
        r.delivery_address = r'.delivery_address)
    (hFDcust : ∀ r ∈ rows, ∀ r' ∈ rows,
      r.customer_name = r'.customer_name → r.email = r'.email →
        locTuple r = locTuple r')
    (hFDprod : ∀ r ∈ rows, ∀ r' ∈ rows,
      r.product_id = r'.product_id → prodTuple r = prodTuple r') :
    (factSales kgL kgC kgP rows).length
        = (rows.filter (fun r => r.transaction_id.isSome)).length ∧
    ∀ s ∈ rows,
      ((dimCustomer kgL kgC rows).filter (custMatch s)).length = 1 ∧
      ((dimProduct kgP rows).filter (prodMatch s)).length = 1 ∧
      ((dimLocation kgL rows).filter (locMatch s)).length = 1 ∧
      (∀ d, s.transaction_date = some d →
        ((dimDate rows).filter (fun dd => decide (dd.date_key = d))).length = 1) := by
  constructor
  · rw [factSales, factSalesAll, filter_flatMap]
    have hcong : ∀ s ∈ rows,
        ((factRowsOf (dimCustomer kgL kgC rows) (dimProduct kgP rows)
            (dimLocation kgL rows) s).filter (fun f => f.transaction_id.isSome))
          = if s.transaction_id.isSome then [soleFactRow kgL kgC kgP s] else [] := by
      intro s hs
      rw [factRowsOf, cust_filter_singleton kgL kgC hFDcust hs,
          prod_filter_singleton kgP hFDprod hs (hpid s hs),
          loc_filter_singleton kgL hFDloc hs]
      by_cases h : s.transaction_id.isSome
      · simp [h, soleFactRow, mkLoc, mkProd]
      · simp [h]
    rw [List.flatMap_congr hcong, List.length_flatMap]
    have hmap : List.map (List.length ∘ fun s =>
          if s.transaction_id.isSome then [soleFactRow kgL kgC kgP s] else []) rows
        = List.map (fun s : Row => if s.transaction_id.isSome then 1 else 0) rows := by
      apply List.map_congr_left
      intro a _
      by_cases h : a.transaction_id.isSome <;> simp [h]
    rw [hmap, sum_ite_eq_length_filter]
  · intro s hs
    refine ⟨?_, ?_, ?_, ?_⟩
    · rw [cust_filter_singleton kgL kgC hFDcust hs]; rfl
    · rw [prod_filter_singleton kgP hFDprod hs (hpid s hs)]; rfl
    · rw [loc_filter_singleton kgL hFDloc hs]; rfl
    · intro d hd
      rw [date_filter_singleton hs hd]; rfl

/-- Witness for the amended C1 at a concrete two-transaction input
satisfying the functional dependencies. -/
theorem claim1_amended_witness :
    (factSales (fun _ => 0) (fun _ => 0) (fun _ => 0) [row100, row50]).length
      = ([row100, row50].filter (fun r => r.transaction_id.isSome)).length :=
  (claim1_fact_one_row_per_transaction (fun _ => 0) (fun _ => 0) (fun _ => 0)
    [row100, row50] (by decide) (by decide) (by decide) (by decide)).1

/-- Witness for C8 at a concrete one-row input whose single
`dim_customer` row carries the single `dim_location` row's key. -/
theorem claim8_witness :
    ∃ l ∈ dimLocation (fun _ => 0) [row100],
      l.location_key
        = (⟨7, 0, "Alice", "alice@example.com"⟩ : DimCustomerRow).location_key :=
  claim8_customer_location_integrity (fun _ => 0) (fun _ => 7) [row100]
    ⟨7, 0, "Alice", "alice@example.com"⟩ (by decide)

/-- Witness for C9 at a concrete one-row bronze input. -/
theorem claim9_witness :
    1 ≤ (dailyGroup (salesSilver [row100])
          (some d20240101, "Electronics")).total_transactions ∧
    (((dailyGroup (salesSilver [row100])
          (some d20240101, "Electronics")).total_transactions : Rat) ≠ 0) :=
  claim9_no_division_by_zero [row100]
    (dailyGroup (salesSilver [row100]) (some d20240101, "Electronics"))
    (by
      have h : ((salesSilver [row100]).map goldKey).dedup
          = [(some d20240101, "Electronics")] := by decide
      rw [dailySalesGold, h]
      exact List.mem_singleton.mpr rfl)

end DLT
